import Mathlib

/-!
Verification of the fetch-and-simplify pipeline of `mcp-server-fetch`
(`src/mcp_server_fetch/server.py`).

Python strings are modelled as `List Char`; Python slicing
`s[a : a + m]` with `a, m ≥ 0` is `(s.drop a).take m`; `len` is
`List.length`.  Every definition below is a direct transcription of the
corresponding lines of `server.py`, with the line numbers noted.
-/

/-- The sentinel text assigned on lines 313 and 318 of `server.py`:
`"<error>No more content available.</error>"`. -/
def noMoreContentSentinel : List Char :=
  ("<error>No more content available.</error>").data

/-- The truncation-continuation hint appended on line 330 of `server.py`:
`f"\n\n<error>Content truncated. Call the fetch tool with a start_index of {next_start} to get more content.</error>"`. -/
def truncationHint (nextStart : Nat) : List Char :=
  ("\n\n<error>Content truncated. Call the fetch tool with a start_index of ").data
    ++ (Nat.repr nextStart).data
    ++ (" to get more content.</error>").data

/-- The windowing step of the tool handler, lines 310-330 of `server.py`:

```python
if args.start_index >= original_length:
    content = "<error>No more content available.</error>"
else:
    truncated_content = content[args.start_index : args.start_index + args.max_length]
    if not truncated_content:
        content = "<error>No more content available.</error>"
    else:
        content = truncated_content
        actual_content_length = len(truncated_content)
        remaining_content = original_length - (args.start_index + actual_content_length)
        if actual_content_length == args.max_length and remaining_content > 0:
            next_start = args.start_index + actual_content_length
            content += f"\n\n<error>Content truncated. ..."
```

`remaining_content` is a Python `int`; since `start_index < original_length`
and the slice stops at the end of the string, `start_index +
actual_content_length ≤ original_length`, so the `Nat` subtraction below
computes the same value and `0 < remaining` iff the Python comparison
`remaining_content > 0` holds. -/
def windowStep (content : List Char) (startIndex maxLength : Nat) : List Char :=
  if content.length ≤ startIndex then
    noMoreContentSentinel
  else
    let truncatedContent := (content.drop startIndex).take maxLength
    if truncatedContent = [] then
      noMoreContentSentinel
    else
      let actualContentLength := truncatedContent.length
      let remainingContent := content.length - (startIndex + actualContentLength)
      if actualContentLength = maxLength ∧ 0 < remainingContent then
        truncatedContent ++ truncationHint (startIndex + actualContentLength)
      else
        truncatedContent

/-- The single return path of the tool handler, line 333 of `server.py`:
`return [TextContent(type="text", text=f"{prefix}Contents of {url}:\n{content}")]`. -/
def callToolPayload (pfx url windowed : List Char) : List Char :=
  pfx ++ ("Contents of ").data ++ url ++ (":\n").data ++ windowed

/-- Lines 304-333 of `server.py` composed: window the fetched content,
then format it into the single text payload. -/
def callToolText (pfx url content : List Char) (startIndex maxLength : Nat) : List Char :=
  callToolPayload pfx url (windowStep content startIndex maxLength)

/-! ### Basic facts about the windowing step -/

theorem truncationHint_length_pos (n : Nat) : 0 < (truncationHint n).length := by
  simp [truncationHint]

theorem windowSlice_ne_nil {content : List Char} {startIndex maxLength : Nat}
    (hm : 0 < maxLength) (hs : startIndex < content.length) :
    (content.drop startIndex).take maxLength ≠ [] := by
  have hlen : 0 < ((content.drop startIndex).take maxLength).length := by
    rw [List.length_take, List.length_drop]
    exact lt_min hm (Nat.sub_pos_of_lt hs)
  exact List.ne_nil_of_length_pos hlen

/-- Helper: the exact form of `windowStep` when the hint is emitted. -/
theorem windowStep_eq_hint {content : List Char} {startIndex maxLength : Nat}
    (hm : 0 < maxLength)
    (hfill : ((content.drop startIndex).take maxLength).length = maxLength)
    (hmore : startIndex + maxLength < content.length) :
    windowStep content startIndex maxLength =
      (content.drop startIndex).take maxLength ++ truncationHint (startIndex + maxLength) := by
  have hs : startIndex < content.length := by omega
  have hne : (content.drop startIndex).take maxLength ≠ [] := windowSlice_ne_nil hm hs
  have hrem : 0 < content.length -
      (startIndex + ((content.drop startIndex).take maxLength).length) := by
    rw [hfill]; omega
  simp only [windowStep, if_neg (Nat.not_le.mpr hs), if_neg hne]
  rw [if_pos ⟨hfill, hrem⟩, hfill]

/-- Helper: the exact form of `windowStep` when the hint condition fails. -/
theorem windowStep_eq_slice {content : List Char} {startIndex maxLength : Nat}
    (hm : 0 < maxLength) (hs : startIndex < content.length)
    (hno : ¬(((content.drop startIndex).take maxLength).length = maxLength ∧
        startIndex + maxLength < content.length)) :
    windowStep content startIndex maxLength =
      (content.drop startIndex).take maxLength := by
  have hne : (content.drop startIndex).take maxLength ≠ [] := windowSlice_ne_nil hm hs
  simp only [windowStep, if_neg (Nat.not_le.mpr hs), if_neg hne]
  rw [if_neg]
  intro ⟨hfill, hrem⟩
  exact hno ⟨hfill, by rw [hfill] at hrem; omega⟩

/-- C1: for `max_length > 0` and `0 ≤ start_index < length(content)`, the
windowing step appends the truncation-continuation hint (reporting next
start index `start_index + max_length`) if and only if the slice
`content[start_index : start_index + max_length]` has length exactly
`max_length` and `start_index + max_length < length(content)`; whenever the
condition fails — in particular when the slice is shorter than `max_length`
because the content ended — the step returns the bare slice with no hint. -/
theorem windowStep_hint_iff (content : List Char) (startIndex maxLength : Nat)
    (hm : 0 < maxLength) (hs : startIndex < content.length) :
    (windowStep content startIndex maxLength =
        (content.drop startIndex).take maxLength ++ truncationHint (startIndex + maxLength) ↔
      ((content.drop startIndex).take maxLength).length = maxLength ∧
        startIndex + maxLength < content.length) ∧
    (¬(((content.drop startIndex).take maxLength).length = maxLength ∧
        startIndex + maxLength < content.length) →
      windowStep content startIndex maxLength = (content.drop startIndex).take maxLength) := by
  constructor
  · constructor
    · intro heq
      by_contra hno
      rw [windowStep_eq_slice hm hs hno] at heq
      have := congrArg List.length heq
      rw [List.length_append] at this
      have := truncationHint_length_pos (startIndex + maxLength)
      omega
    · intro ⟨hfill, hmore⟩
      exact windowStep_eq_hint hm hfill hmore
  · exact windowStep_eq_slice hm hs

theorem windowStep_hint_iff_witness :
    (0 < 3 ∧ 0 < ("abcdefgh").data.length) ∧
      (windowStep ("abcdefgh").data 0 3 =
          (("abcdefgh").data.drop 0).take 3 ++ truncationHint 3 ↔
        ((("abcdefgh").data.drop 0).take 3).length = 3 ∧ 0 + 3 < ("abcdefgh").data.length) :=
  ⟨by decide, (windowStep_hint_iff ("abcdefgh").data 0 3 (by decide) (by decide)).1⟩

/-- C2: for every content, `max_length` and `start_index`, if
`start_index ≥ length(content)` or the clipped slice
`content[start_index : start_index + max_length]` is empty, the windowing
step deterministically returns the sentinel
`"<error>No more content available.</error>"` (in particular no truncation
hint and no next start index are produced: the result is exactly the
sentinel). -/
theorem windowStep_sentinel (content : List Char) (startIndex maxLength : Nat)
    (h : content.length ≤ startIndex ∨ (content.drop startIndex).take maxLength = []) :
    windowStep content startIndex maxLength = noMoreContentSentinel := by
  rcases h with h | h
  · simp [windowStep, h]
  · by_cases hs : content.length ≤ startIndex
    · simp [windowStep, hs]
    · simp only [windowStep, if_neg hs]
      rw [if_pos h]

theorem windowStep_sentinel_witness :
    (("ab").data.length ≤ 5 ∨ (("ab").data.drop 5).take 4 = []) ∧
      windowStep ("ab").data 5 4 = noMoreContentSentinel :=
  ⟨Or.inl (by decide), windowStep_sentinel ("ab").data 5 4 (Or.inl (by decide))⟩

/-- C9: whenever the truncation hint is emitted, the windowed content is the
`max_length`-character slice with the hint appended, hence strictly longer
than `max_length` characters: `max_length` bounds only the slice, never the
final content. -/
theorem windowStep_hint_longer (content : List Char) (startIndex maxLength : Nat)
    (hm : 0 < maxLength)
    (hfill : ((content.drop startIndex).take maxLength).length = maxLength)
    (hmore : startIndex + maxLength < content.length) :
    windowStep content startIndex maxLength =
        (content.drop startIndex).take maxLength ++ truncationHint (startIndex + maxLength) ∧
      maxLength < (windowStep content startIndex maxLength).length := by
  refine ⟨windowStep_eq_hint hm hfill hmore, ?_⟩
  rw [windowStep_eq_hint hm hfill hmore, List.length_append, hfill]
  have := truncationHint_length_pos (startIndex + maxLength)
  omega

theorem windowStep_hint_longer_witness :
    (0 < 2 ∧ ((("abcde").data.drop 1).take 2).length = 2 ∧ 1 + 2 < ("abcde").data.length) ∧
      (windowStep ("abcde").data 1 2 =
          (("abcde").data.drop 1).take 2 ++ truncationHint 3 ∧
        2 < (windowStep ("abcde").data 1 2).length) :=
  ⟨by decide, windowStep_hint_longer ("abcde").data 1 2 (by decide) (by decide) (by decide)⟩

/-! ### The single return path of the tool handler (C6) -/

/-- C6 counterexample: with empty prefix, url `http://x` and content `"ab"`
requested at `start_index = 2 = len(content)`, the text payload the tool
handler returns is NOT exactly `"<error>No more content available.</error>"`
— line 333 of `server.py` always wraps the windowed content as
`f"{prefix}Contents of {url}:\n{content}"`. -/
theorem callToolText_not_bare_sentinel :
    callToolText [] ("http://x").data ("ab").data 2 5 ≠ noMoreContentSentinel := by
  decide

/-- C6 (amended): when `start_index` equals the length of the fetched
content, the windowed content is exactly the sentinel
`"<error>No more content available.</error>"`, and the text payload
returned to the caller is that sentinel embedded in the uniform format
`"{prefix}Contents of {url}:\n{content}"` — the single return path applies
the same wrapping to the sentinel as to any other content. -/
theorem callToolText_at_end (pfx url content : List Char) (startIndex maxLength : Nat)
    (h : startIndex = content.length) :
    windowStep content startIndex maxLength = noMoreContentSentinel ∧
      callToolText pfx url content startIndex maxLength =
        pfx ++ ("Contents of ").data ++ url ++ (":\n").data ++ noMoreContentSentinel := by
  have hwin : windowStep content startIndex maxLength = noMoreContentSentinel := by
    rw [windowStep, if_pos (le_of_eq h.symm)]
  exact ⟨hwin, by rw [callToolText, callToolPayload, hwin]⟩

theorem callToolText_at_end_witness :
    (2 = ("ab").data.length) ∧
      (windowStep ("ab").data 2 7 = noMoreContentSentinel ∧
        callToolText ("p:").data ("http://x").data ("ab").data 2 7 =
          ("p:").data ++ ("Contents of ").data ++ ("http://x").data ++ (":\n").data
            ++ noMoreContentSentinel) :=
  ⟨by decide, callToolText_at_end ("p:").data ("http://x").data ("ab").data 2 7 (by decide)⟩

/-! ### User-agent resolution (C10) -/

/-- Line 29 of `server.py`. -/
def DEFAULT_USER_AGENT_AUTONOMOUS : List Char :=
  ("ModelContextProtocol/1.0 (Autonomous; +https://github.com/modelcontextprotocol/servers)").data

/-- Line 30 of `server.py`. -/
def DEFAULT_USER_AGENT_MANUAL : List Char :=
  ("ModelContextProtocol/1.0 (User-Specified; +https://github.com/modelcontextprotocol/servers)").data

/-- Python's `a or b` for `a : str | None`: `b` when `a` is `None` or the
empty string (both falsy), else `a`. -/
def pyOrStr (a : Option (List Char)) (b : List Char) : List Char :=
  match a with
  | none => b
  | some s => if s = [] then b else s

/-- Line 251 of `server.py`:
`user_agent_autonomous = custom_user_agent or DEFAULT_USER_AGENT_AUTONOMOUS`.
This is the agent string used by the tool path (lines 302 and 305). -/
def userAgentAutonomous (customUserAgent : Option (List Char)) : List Char :=
  pyOrStr customUserAgent DEFAULT_USER_AGENT_AUTONOMOUS

/-- Line 252 of `server.py`:
`user_agent_manual = custom_user_agent or DEFAULT_USER_AGENT_MANUAL`.
This is the agent string used by the prompt path (line 346). -/
def userAgentManual (customUserAgent : Option (List Char)) : List Char :=
  pyOrStr customUserAgent DEFAULT_USER_AGENT_MANUAL

/-- C10: when a (non-empty) custom user-agent override is configured at
startup, the autonomous (tool) path and the manual (prompt) path both use
that same single string; when no override is set, the two paths use the two
built-in defaults, which are distinct — so the autonomous/manual
distinction visible to servers exists only without an override. -/
theorem userAgent_override (s : List Char) (hs : s ≠ []) :
    (userAgentAutonomous (some s) = s ∧ userAgentManual (some s) = s) ∧
      (userAgentAutonomous none = DEFAULT_USER_AGENT_AUTONOMOUS ∧
        userAgentManual none = DEFAULT_USER_AGENT_MANUAL ∧
        DEFAULT_USER_AGENT_AUTONOMOUS ≠ DEFAULT_USER_AGENT_MANUAL) := by
  refine ⟨⟨?_, ?_⟩, rfl, rfl, by decide⟩
  · simp [userAgentAutonomous, pyOrStr, hs]
  · simp [userAgentManual, pyOrStr, hs]

theorem userAgent_override_witness :
    (("MyAgent/2.0").data ≠ []) ∧
      ((userAgentAutonomous (some ("MyAgent/2.0").data) = ("MyAgent/2.0").data ∧
          userAgentManual (some ("MyAgent/2.0").data) = ("MyAgent/2.0").data) ∧
        (userAgentAutonomous none = DEFAULT_USER_AGENT_AUTONOMOUS ∧
          userAgentManual none = DEFAULT_USER_AGENT_MANUAL ∧
          DEFAULT_USER_AGENT_AUTONOMOUS ≠ DEFAULT_USER_AGENT_MANUAL)) :=
  ⟨by decide, userAgent_override ("MyAgent/2.0").data (by decide)⟩

/-! ### HTML classification (C3) -/

/-- Python's substring test `needle in hay`. -/
def pyContains (needle hay : List Char) : Bool :=
  match hay with
  | [] => needle.isEmpty
  | _ :: t => needle.isPrefixOf hay || pyContains needle t

/-- `pyContains` decides list containment (`List.IsInfix`). -/
theorem pyContains_iff (needle hay : List Char) :
    pyContains needle hay = true ↔ needle <:+: hay := by
  induction hay with
  | nil =>
    simp only [pyContains, List.isEmpty_iff, List.infix_nil]
  | cons c t ih =>
    simp only [pyContains, Bool.or_eq_true, List.isPrefixOf_iff_prefix, ih,
      List.infix_cons_iff]

/-- Lines 175-178 of `server.py`:

```python
content_type = response.headers.get("content-type", "")
is_page_html = (
    "<html" in page_raw[:100] or "text/html" in content_type or not content_type
)
```

`contentType` is the value of the `content-type` header, defaulted to the
empty string when the header is absent. -/
def isPageHtml (pageRaw contentType : List Char) : Bool :=
  pyContains ("<html").data (pageRaw.take 100) || pyContains ("text/html").data contentType
    || contentType.isEmpty

/-- C3: the fetcher classifies the body as HTML exactly when the first 100
characters of the body contain the literal case-sensitive substring
`<html`, or the content-type value contains `text/html`, or the
content-type value is absent/empty; moreover nothing else affects the
classification — two bodies agreeing on their first 100 characters are
classified identically under every content-type. -/
theorem isPageHtml_characterisation (pageRaw contentType : List Char) :
    (isPageHtml pageRaw contentType = true ↔
      ("<html").data <:+: pageRaw.take 100 ∨
        ("text/html").data <:+: contentType ∨ contentType = []) ∧
    (∀ pageRaw₂ : List Char, pageRaw.take 100 = pageRaw₂.take 100 →
      isPageHtml pageRaw contentType = isPageHtml pageRaw₂ contentType) := by
  constructor
  · simp only [isPageHtml, Bool.or_eq_true, pyContains_iff, List.isEmpty_iff, or_assoc]
  · intro pageRaw₂ h
    simp only [isPageHtml, h]

theorem isPageHtml_characterisation_witness :
    (("x").data.take 100 = ("x").data.take 100) ∧
      isPageHtml ("x").data ("application/json").data =
        isPageHtml ("x").data ("application/json").data :=
  ⟨rfl, (isPageHtml_characterisation ("x").data ("application/json").data).2
    ("x").data rfl⟩

/-! ### Request configuration and timeouts (C8) -/

/-- The arguments a `client.get(...)` call in `server.py` passes to the
HTTP library: the target URL, whether redirects are followed, the
`User-Agent` header value, and the explicit `timeout` argument
(`none` when the call passes no timeout and the library default applies). -/
structure HttpGetCall where
  url : List Char
  followRedirects : Bool
  userAgentHeader : List Char
  timeout : Option Nat
  deriving Repr, DecidableEq

/-- Lines 94-98 of `server.py` — the robots.txt fetch:

```python
response = await client.get(
    robot_txt_url,
    follow_redirects=True,
    headers={"User-Agent": user_agent},
)
```

No `timeout` argument is passed. -/
def robotsTxtGetCall (robotTxtUrl userAgent : List Char) : HttpGetCall :=
  { url := robotTxtUrl, followRedirects := true, userAgentHeader := userAgent,
    timeout := none }

/-- Lines 154-159 of `server.py` — the resource fetch:

```python
response = await client.get(
    url,
    follow_redirects=True,
    headers={"User-Agent": user_agent},
    timeout=30,
)
``` -/
def resourceGetCall (url userAgent : List Char) : HttpGetCall :=
  { url := url, followRedirects := true, userAgentHeader := userAgent,
    timeout := some 30 }

/-- C8 counterexample: the robots-policy fetch issued for
`http://example.com` carries NO explicit timeout bound — lines 94-98 of
`server.py` pass no `timeout` argument, so no bound comparable to the
resource fetch's 30 seconds is configured by this code (any bound that
applies comes from the HTTP library's own default). -/
theorem robotsTxtGetCall_no_timeout :
    ¬∃ t : Nat, (robotsTxtGetCall ("http://example.com/robots.txt").data
        DEFAULT_USER_AGENT_AUTONOMOUS).timeout = some t := by
  intro ⟨t, ht⟩
  simp [robotsTxtGetCall] at ht

/-- C8 (amended): the resource fetch carries a fixed explicit 30-second
timeout, while the robots-policy fetch passes no explicit timeout at all
and relies on the HTTP client library's default bound. -/
theorem getCall_timeouts (url robotTxtUrl userAgent : List Char) :
    (resourceGetCall url userAgent).timeout = some 30 ∧
      (robotsTxtGetCall robotTxtUrl userAgent).timeout = none :=
  ⟨rfl, rfl⟩

/-! ### Robots URL derivation (C7)

Lines 62-78 of `server.py`:

```python
parsed = urlparse(url)
robots_url = urlunparse((parsed.scheme, parsed.netloc, "/robots.txt", "", "", ""))
```

`urllib.parse.urlparse` is `urlsplit` plus a params/path split that
`urlunparse` undoes; since the call passes `params = ""`, the composition
coincides with `urlsplit`/`urlunsplit`, which are modelled below following
CPython (`Lib/urllib/parse.py`).  `urlsplit` can also raise instead of
returning: an unmatched `[`/`]` in the netloc raises
`ValueError("Invalid IPv6 URL")`, and a matched bracket pair triggers
`_check_bracketed_host`, which raises on anything but a valid IPv6/IPvFuture
literal.  The unmatched-bracket raise condition is modelled explicitly by
`urlsplitRaisesValueError` below; `urlsplitModel`'s value describes the
return path only.  The C7 theorem keeps both raise paths out of scope by
requiring a bracket-free netloc, and asserts on top that the modelled raise
condition is false there. -/

/-- WHATWG "C0 control or space": the characters `urlsplit` strips from the
front of the URL. -/
def whatwgControlOrSpace (c : Char) : Bool :=
  decide (c.toNat ≤ 32)

/-- `_UNSAFE_URL_BYTES_TO_REMOVE = ["\t", "\r", "\n"]`: removed from the
whole URL by `urlsplit`. -/
def unsafeUrlByte (c : Char) : Bool :=
  decide (c = '\t' ∨ c = '\r' ∨ c = '\n')

/-- ASCII letter, as tested by `url[0].isascii() and url[0].isalpha()`. -/
def pyIsAsciiAlpha (c : Char) : Bool :=
  decide ((65 ≤ c.toNat ∧ c.toNat ≤ 90) ∨ (97 ≤ c.toNat ∧ c.toNat ≤ 122))

/-- `scheme_chars` of `urllib.parse`: ASCII letters, digits and `+-.`. -/
def schemeChar (c : Char) : Bool :=
  pyIsAsciiAlpha c || decide (48 ≤ c.toNat ∧ c.toNat ≤ 57)
    || decide (c = '+' ∨ c = '-' ∨ c = '.')

/-- `str.lower` restricted to ASCII; `urlsplit` applies it only to the
scheme, whose characters the guard has already confined to ASCII. -/
def pyCharLower (c : Char) : Char :=
  if 65 ≤ c.toNat ∧ c.toNat ≤ 90 then Char.ofNat (c.toNat + 32) else c

/-- `s.split(sep, 1)` (and `s.find(sep)`): the part before the first
character satisfying `p`, and the part after it; `none` when absent. -/
def splitAtFirst (p : Char → Bool) : List Char → Option (List Char × List Char)
  | [] => none
  | c :: rest =>
    if p c then some ([], rest)
    else
      match splitAtFirst p rest with
      | none => none
      | some (a, b) => some (c :: a, b)

/-- The scheme split of `urlsplit`:

```python
i = url.find(':')
if i > 0 and url[0].isascii() and url[0].isalpha():
    for c in url[1:i]:
        if c not in scheme_chars:
            break
    else:
        scheme, url = url[:i].lower(), url[i+1:]
``` -/
def splitScheme (url : List Char) : List Char × List Char :=
  match splitAtFirst (fun c => c = ':') url with
  | some (c :: rest, after) =>
    if pyIsAsciiAlpha c && rest.all schemeChar then
      ((c :: rest).map pyCharLower, after)
    else
      ([], url)
  | _ => ([], url)

/-- A character that does not terminate the netloc (`_splitnetloc` scans up
to the first of `/?#`). -/
def netlocChar (c : Char) : Bool :=
  !(c = '/' || c = '?' || c = '#')

/-- `if url[:2] == '//': netloc, url = _splitnetloc(url, 2)`. -/
def splitNetloc (url : List Char) : List Char × List Char :=
  if url.take 2 = ['/', '/'] then
    ((url.drop 2).takeWhile netlocChar, (url.drop 2).dropWhile netlocChar)
  else
    ([], url)

/-- The condition under which `urlsplit` raises
`ValueError("Invalid IPv6 URL")` right after `_splitnetloc`:

```python
if (('[' in netloc and ']' not in netloc) or
        (']' in netloc and '[' not in netloc)):
    raise ValueError("Invalid IPv6 URL")
``` -/
def invalidIpv6Url (netloc : List Char) : Bool :=
  decide (('[' ∈ netloc ∧ ']' ∉ netloc) ∨ (']' ∈ netloc ∧ '[' ∉ netloc))

/-- `if '#' in url: url, fragment = url.split('#', 1)`. -/
def splitFragment (url : List Char) : List Char × List Char :=
  match splitAtFirst (fun c => c = '#') url with
  | some (a, b) => (a, b)
  | none => (url, [])

/-- `if '?' in url: url, query = url.split('?', 1)`. -/
def splitQuery (url : List Char) : List Char × List Char :=
  match splitAtFirst (fun c => c = '?') url with
  | some (a, b) => (a, b)
  | none => (url, [])

/-- The result of `urllib.parse.urlsplit`. -/
structure UrlSplitResult where
  scheme : List Char
  netloc : List Char
  path : List Char
  query : List Char
  fragment : List Char
  deriving Repr, DecidableEq

/-- `urllib.parse.urlsplit` (with `allow_fragments=True`): strip leading
C0-control-or-space, remove tab/CR/LF, then split off scheme, netloc,
fragment and query in that order.  This is the return path only: whether
the unmatched-bracket `ValueError` fires instead is
`urlsplitRaisesValueError`, and the matched-bracket host validation
(`_check_bracketed_host`, which may also raise) is not modelled — the C7
theorem's hypotheses exclude every bracketed netloc. -/
def urlsplitModel (url0 : List Char) : UrlSplitResult :=
  let url := (url0.dropWhile whatwgControlOrSpace).filter (fun c => !unsafeUrlByte c)
  let sp := splitScheme url
  let np := splitNetloc sp.2
  let fp := splitFragment np.2
  let qp := splitQuery fp.1
  ⟨sp.1, np.1, qp.1, qp.2, fp.2⟩

/-- Whether `urlsplit` raises `ValueError("Invalid IPv6 URL")` on this URL:
the `invalidIpv6Url` test applied to the netloc that `_splitnetloc` carves
out of the stripped, tab/CR/LF-free URL. -/
def urlsplitRaisesValueError (url0 : List Char) : Bool :=
  invalidIpv6Url (splitNetloc (splitScheme
    ((url0.dropWhile whatwgControlOrSpace).filter (fun c => !unsafeUrlByte c))).2).1

/-- `urllib.parse.urlunsplit`:

```python
if netloc or (url and url[:2] == '//'):
    if url and url[:1] != '/': url = '/' + url
    url = '//' + (netloc or '') + url
if scheme: url = scheme + ':' + url
if query: url = url + '?' + query
if fragment: url = url + '#' + fragment
``` -/
def urlunsplitModel (c : UrlSplitResult) : List Char :=
  let url := c.path
  let url :=
    if c.netloc ≠ [] ∨ (url ≠ [] ∧ url.take 2 = ['/', '/']) then
      '/' :: '/' :: (c.netloc ++ (if url ≠ [] ∧ url.take 1 ≠ ['/'] then '/' :: url else url))
    else url
  let url := if c.scheme ≠ [] then c.scheme ++ ':' :: url else url
  let url := if c.query ≠ [] then url ++ '?' :: c.query else url
  if c.fragment ≠ [] then url ++ '#' :: c.fragment else url

/-- Lines 72-75 of `server.py` (`get_robots_txt_url`): keep only the parsed
scheme and netloc and rebuild the URL with path `"/robots.txt"` and empty
params, query and fragment.  The real function propagates `urlparse`'s
`ValueError` on bracket-invalid netlocs instead of returning; this value
describes the return path, and `urlsplitRaisesValueError` tells whether
the modelled raise fires instead. -/
def getRobotsTxtUrl (url : List Char) : List Char :=
  let parsed := urlsplitModel url
  urlunsplitModel ⟨parsed.scheme, parsed.netloc, ("/robots.txt").data, [], []⟩


/-! ### Helper lemmas for the URL-splitting proof -/

/-- ASCII lowercase letter (`a`-`z`); the character class the C7 theorem
assumes for the scheme. -/
def lowerAlpha (c : Char) : Prop := 97 ≤ c.toNat ∧ c.toNat ≤ 122

instance (c : Char) : Decidable (lowerAlpha c) := by
  unfold lowerAlpha; infer_instance

theorem lowerAlpha_whatwg {c : Char} (h : lowerAlpha c) :
    whatwgControlOrSpace c = false := by
  obtain ⟨h1, h2⟩ := h
  simp only [whatwgControlOrSpace, decide_eq_false_iff_not]
  omega

theorem lowerAlpha_ne {c : Char} (h : lowerAlpha c) (x : Char) (hx : ¬lowerAlpha x) :
    c ≠ x := fun e => hx (e ▸ h)

theorem lowerAlpha_urlByteKept {c : Char} (h : lowerAlpha c) : unsafeUrlByte c = false := by
  simp only [unsafeUrlByte, decide_eq_false_iff_not]
  rintro (rfl | rfl | rfl) <;> exact absurd h (by decide)

theorem lowerAlpha_isAsciiAlpha {c : Char} (h : lowerAlpha c) : pyIsAsciiAlpha c = true := by
  obtain ⟨h1, h2⟩ := h
  simp only [pyIsAsciiAlpha, decide_eq_true_eq]
  omega

theorem lowerAlpha_schemeChar {c : Char} (h : lowerAlpha c) : schemeChar c = true := by
  rw [schemeChar, lowerAlpha_isAsciiAlpha h, Bool.true_or, Bool.true_or]

theorem lowerAlpha_pyCharLower {c : Char} (h : lowerAlpha c) : pyCharLower c = c := by
  obtain ⟨h1, h2⟩ := h
  rw [pyCharLower, if_neg]
  omega

theorem splitAtFirst_append {p : Char → Bool} {a : List Char} (x : Char) (b : List Char)
    (ha : ∀ c ∈ a, p c = false) (hx : p x = true) :
    splitAtFirst p (a ++ x :: b) = some (a, b) := by
  induction a with
  | nil => simp [splitAtFirst, hx]
  | cons c t ih =>
    have hc : p c = false := ha c (List.mem_cons_self _ _)
    rw [List.cons_append, splitAtFirst, if_neg (by simp [hc]),
      ih (fun d hd => ha d (List.mem_cons_of_mem _ hd))]

theorem takeWhile_append_stop {q : Char → Bool} {a : List Char} (y : Char) (b : List Char)
    (ha : ∀ c ∈ a, q c = true) (hy : q y = false) :
    (a ++ y :: b).takeWhile q = a ∧ (a ++ y :: b).dropWhile q = y :: b := by
  induction a with
  | nil =>
    constructor
    · rw [List.nil_append, List.takeWhile_cons, if_neg (by simp [hy])]
    · rw [List.nil_append, List.dropWhile_cons, if_neg (by simp [hy])]
  | cons c t ih =>
    have hc : q c = true := ha c (List.mem_cons_self _ _)
    have iht := ih (fun d hd => ha d (List.mem_cons_of_mem _ hd))
    constructor
    · rw [List.cons_append, List.takeWhile_cons, if_pos hc, iht.1]
    · rw [List.cons_append, List.dropWhile_cons, if_pos hc, iht.2]

theorem map_eq_self_of_forall {f : Char → Char} {l : List Char} (h : ∀ c ∈ l, f c = c) :
    l.map f = l := by
  induction l with
  | nil => rfl
  | cons c t ih =>
    rw [List.map_cons, h c (List.mem_cons_self _ _),
      ih (fun d hd => h d (List.mem_cons_of_mem _ hd))]

/-- Python `str.splitlines` line boundaries: LF, CR, VT, FF, FS, GS, RS,
NEL, LINE SEPARATOR, PARAGRAPH SEPARATOR (CRLF is handled as one boundary
by the splitter itself). -/
def pyLineBreak (c : Char) : Bool :=
  decide (c.toNat = 10 ∨ c.toNat = 13 ∨ c.toNat = 11 ∨ c.toNat = 12 ∨ c.toNat = 28 ∨
    c.toNat = 29 ∨ c.toNat = 30 ∨ c.toNat = 133 ∨ c.toNat = 8232 ∨ c.toNat = 8233)

/-- Python `str.splitlines`: split at each line boundary, treating CRLF as
a single boundary; a trailing boundary produces no extra empty line. -/
def pySplitlines : List Char → List (List Char)
  | [] => []
  | [c] => if pyLineBreak c then [[]] else [[c]]
  | c :: d :: rest =>
    if c = '\r' ∧ d = '\n' then
      [] :: pySplitlines rest
    else if pyLineBreak c then
      [] :: pySplitlines (d :: rest)
    else
      match pySplitlines (d :: rest) with
      | [] => [[c]]
      | l :: ls => (c :: l) :: ls

/-- The characters `str.strip()` removes (Python `str.isspace`):
TAB/LF/VT/FF/CR, FS/GS/RS/US, space, NEL, NBSP and the Unicode space
separators. -/
def pyIsSpace (c : Char) : Bool :=
  decide ((9 ≤ c.toNat ∧ c.toNat ≤ 13) ∨ (28 ≤ c.toNat ∧ c.toNat ≤ 32) ∨
    c.toNat = 133 ∨ c.toNat = 160 ∨ c.toNat = 5760 ∨
    (8192 ≤ c.toNat ∧ c.toNat ≤ 8202) ∨ c.toNat = 8232 ∨ c.toNat = 8233 ∨
    c.toNat = 8239 ∨ c.toNat = 8287 ∨ c.toNat = 12288)

/-- Python `str.strip()`: drop whitespace from both ends. -/
def pyStrip (l : List Char) : List Char :=
  ((l.dropWhile pyIsSpace).reverse.dropWhile pyIsSpace).reverse

/-- `line.strip().startswith("#")` — the full-line-comment test of
line 119 of `server.py`. -/
def isCommentLine (l : List Char) : Bool :=
  ['#'].isPrefixOf (pyStrip l)

/-- Python `"\n".join(...)`. -/
def joinNL : List (List Char) → List Char
  | [] => []
  | [l] => l
  | l :: l2 :: rest => l ++ '\n' :: joinNL (l2 :: rest)

/-- Lines 118-120 of `server.py`: the text handed to `Protego.parse` —
the robots body with every full-line comment removed. -/
def processedRobotTxt (robotTxt : List Char) : List Char :=
  joinNL ((pySplitlines robotTxt).filter (fun line => !isCommentLine line))

/-- The message of the 401/403 denial raised on lines 108-111 of
`server.py`. -/
def robotsFetchDeniedMessage (robotTxtUrl : List Char) (statusCode : Nat) : List Char :=
  ("When fetching robots.txt (").data ++ robotTxtUrl ++ ("), received status ").data
    ++ (Nat.repr statusCode).data
    ++ (" so assuming that autonomous fetching is not allowed, the user can try manually fetching by using the fetch prompt").data

/-- The message of the rules-disallow denial raised on lines 129-137 of
`server.py`; it embeds the robots URL, the user-agent, the target URL and
the RAW robots text (`robot_txt`, not `processed_robot_txt`). -/
def robotsDisallowedMessage (robotTxtUrl userAgent url robotTxt : List Char) : List Char :=
  ("The sites robots.txt (").data ++ robotTxtUrl
    ++ ("), specifies that autonomous fetching of this page is not allowed, <useragent>").data
    ++ userAgent ++ ("</useragent>\n<url>").data ++ url ++ ("</url><robots>\n").data
    ++ robotTxt
    ++ ("\n</robots>\nThe assistant must let the user know that it failed to view the page. The assistant may provide further guidance based on the above information.\nThe assistant can tell the user that they can try manually fetching the page by using the fetch prompt within their UI.").data

/-- Outcome of the robots-policy evaluator: raise (`denied` with the error
message) or return normally (`allowed`). -/
inductive RobotsCheck where
  | denied (message : List Char)
  | allowed
  deriving Repr, DecidableEq

/-- Lines 106-137 of `server.py` given the robots.txt response status and
body, abstracting the third-party rule evaluator as `protegoCanFetch`
(processed text → url → user-agent → may fetch). -/
def checkMayAutonomouslyFetchUrl
    (protegoCanFetch : List Char → List Char → List Char → Bool)
    (url userAgent : List Char) (statusCode : Nat) (robotTxt : List Char) : RobotsCheck :=
  let robotTxtUrl := getRobotsTxtUrl url
  if statusCode = 401 ∨ statusCode = 403 then
    .denied (robotsFetchDeniedMessage robotTxtUrl statusCode)
  else if 400 ≤ statusCode ∧ statusCode < 500 then
    .allowed
  else
    if protegoCanFetch (processedRobotTxt robotTxt) url userAgent then
      .allowed
    else
      .denied (robotsDisallowedMessage robotTxtUrl userAgent url robotTxt)

/-- C4: (i) status 401 or 403 makes the evaluator fail with the
policy-denied error, for EVERY rule evaluator and robots body (the rules
are irrelevant); (ii) any other 4xx status makes it return allowed, again
for every rule evaluator and body (nothing is parsed); (iii) for every
status outside 400-499 the rules are parsed and consulted: the evaluator
returns allowed exactly when the rule evaluator permits the exact target
URL for the given user-agent, and fails with the rules-disallow
policy-denied error exactly when it does not. -/
theorem checkMayAutonomouslyFetchUrl_status
    (protegoCanFetch : List Char → List Char → List Char → Bool)
    (url userAgent robotTxt : List Char) (statusCode : Nat) :
    ((statusCode = 401 ∨ statusCode = 403) →
      checkMayAutonomouslyFetchUrl protegoCanFetch url userAgent statusCode robotTxt =
        .denied (robotsFetchDeniedMessage (getRobotsTxtUrl url) statusCode)) ∧
    (400 ≤ statusCode → statusCode < 500 → statusCode ≠ 401 → statusCode ≠ 403 →
      checkMayAutonomouslyFetchUrl protegoCanFetch url userAgent statusCode robotTxt =
        .allowed) ∧
    (¬(400 ≤ statusCode ∧ statusCode < 500) →
      (checkMayAutonomouslyFetchUrl protegoCanFetch url userAgent statusCode robotTxt =
          .allowed ↔
        protegoCanFetch (processedRobotTxt robotTxt) url userAgent = true) ∧
      (checkMayAutonomouslyFetchUrl protegoCanFetch url userAgent statusCode robotTxt =
          .denied (robotsDisallowedMessage (getRobotsTxtUrl url) userAgent url robotTxt) ↔
        protegoCanFetch (processedRobotTxt robotTxt) url userAgent = false)) := by
  refine ⟨?_, ?_, ?_⟩
  · intro h
    rw [checkMayAutonomouslyFetchUrl, if_pos h]
  · intro h1 h2 h3 h4
    rw [checkMayAutonomouslyFetchUrl, if_neg (by omega), if_pos ⟨h1, h2⟩]
  · intro h
    have h401 : ¬(statusCode = 401 ∨ statusCode = 403) := by omega
    rw [checkMayAutonomouslyFetchUrl, if_neg h401, if_neg h]
    by_cases hpt : protegoCanFetch (processedRobotTxt robotTxt) url userAgent = true
    · rw [if_pos hpt]
      simp [hpt]
    · rw [if_neg hpt]
      simp only [Bool.not_eq_true] at hpt
      simp [hpt]

theorem checkMayAutonomouslyFetchUrl_status_witness :
    checkMayAutonomouslyFetchUrl (fun _ _ _ => false)
        ("http://x").data ("ua").data 403 ("t").data =
      .denied (robotsFetchDeniedMessage (getRobotsTxtUrl ("http://x").data) 403) ∧
    checkMayAutonomouslyFetchUrl (fun _ _ _ => true)
        ("http://x").data ("ua").data 404 ("t").data = .allowed ∧
    checkMayAutonomouslyFetchUrl (fun _ _ _ => true)
        ("http://x").data ("ua").data 200 ("t").data = .allowed ∧
    checkMayAutonomouslyFetchUrl (fun _ _ _ => false)
        ("http://x").data ("ua").data 200 ("t").data =
      .denied (robotsDisallowedMessage (getRobotsTxtUrl ("http://x").data)
        ("ua").data ("http://x").data ("t").data) :=
  ⟨(checkMayAutonomouslyFetchUrl_status (fun _ _ _ => false)
      ("http://x").data ("ua").data ("t").data 403).1 (Or.inr rfl),
   (checkMayAutonomouslyFetchUrl_status (fun _ _ _ => true)
      ("http://x").data ("ua").data ("t").data 404).2.1
     (by decide) (by decide) (by decide) (by decide),
   ((checkMayAutonomouslyFetchUrl_status (fun _ _ _ => true)
      ("http://x").data ("ua").data ("t").data 200).2.2 (by decide)).1.mpr rfl,
   ((checkMayAutonomouslyFetchUrl_status (fun _ _ _ => false)
      ("http://x").data ("ua").data ("t").data 200).2.2 (by decide)).2.mpr rfl⟩

/-! ### Facts about `pySplitlines` and comment filtering -/

/-- Lines produced by `pySplitlines` contain no line-boundary character. -/
theorem pySplitlines_no_break (s : List Char) :
    ∀ l ∈ pySplitlines s, ∀ c ∈ l, pyLineBreak c = false := by
  generalize hn : s.length = n
  induction n using Nat.strong_induction_on generalizing s with
  | _ n ih =>
    match s with
    | [] => simp [pySplitlines]
    | [a] =>
      by_cases hb : pyLineBreak a
      · simp [pySplitlines, hb]
      · simp only [pySplitlines, if_neg hb]
        intro l hl c hc
        rw [List.mem_singleton] at hl
        subst hl
        rw [List.mem_singleton] at hc
        subst hc
        simpa using hb
    | a :: d :: rest =>
      simp only [List.length_cons] at hn
      rw [pySplitlines]
      by_cases h1 : a = '\r' ∧ d = '\n'
      · rw [if_pos h1]
        intro l hl c hc
        rcases List.mem_cons.mp hl with rfl | hl'
        · simp at hc
        · exact ih rest.length (by omega) rest rfl l hl' c hc
      · rw [if_neg h1]
        by_cases h2 : pyLineBreak a
        · rw [if_pos h2]
          intro l hl c hc
          rcases List.mem_cons.mp hl with rfl | hl'
          · simp at hc
          · exact ih (d :: rest).length (by simp; omega) (d :: rest) rfl l hl' c hc
        · rw [if_neg h2]
          intro l hl c hc
          rcases hsp : pySplitlines (d :: rest) with _ | ⟨l0, ls⟩
          · rw [hsp] at hl
            dsimp only at hl
            rw [List.mem_singleton] at hl
            subst hl
            rw [List.mem_singleton] at hc
            subst hc
            simpa using h2
          · rw [hsp] at hl
            dsimp only at hl
            rcases List.mem_cons.mp hl with rfl | hl'
            · rcases List.mem_cons.mp hc with rfl | hc'
              · simpa using h2
              · exact ih (d :: rest).length (by simp; omega) (d :: rest) rfl l0
                  (by rw [hsp]; exact List.mem_cons_self _ _) c hc'
            · exact ih (d :: rest).length (by simp; omega) (d :: rest) rfl l
                (by rw [hsp]; exact List.mem_cons_of_mem _ hl') c hc

/-- A boundary-free text splits into itself (or nothing, when empty). -/
theorem pySplitlines_of_no_break {l : List Char}
    (h : ∀ c ∈ l, pyLineBreak c = false) :
    pySplitlines l = if l = [] then [] else [l] := by
  induction l with
  | nil => simp [pySplitlines]
  | cons a t ih =>
    have ha : pyLineBreak a = false := h a (List.mem_cons_self _ _)
    cases t with
    | nil => simp [pySplitlines, ha]
    | cons d rest =>
      have har : a ≠ '\r' := fun e => absurd (e ▸ ha) (by decide)
      rw [pySplitlines, if_neg (fun hh => har hh.1), if_neg (by simp [ha]),
        ih (fun c hc => h c (List.mem_cons_of_mem _ hc))]
      simp

/-- Splitting after a boundary-free first line peels it off. -/
theorem pySplitlines_append_newline (l t : List Char)
    (h : ∀ c ∈ l, pyLineBreak c = false) :
    pySplitlines (l ++ '\n' :: t) = l :: pySplitlines t := by
  induction l with
  | nil =>
    cases t with
    | nil => decide
    | cons d rest =>
      rw [List.nil_append, pySplitlines,
        if_neg (fun hh => absurd hh.1 (by decide)), if_pos (by decide)]
  | cons a l' ih =>
    have ha : pyLineBreak a = false := h a (List.mem_cons_self _ _)
    have har : a ≠ '\r' := fun e => absurd (e ▸ ha) (by decide)
    have ihh := ih (fun c hc => h c (List.mem_cons_of_mem _ hc))
    cases l' with
    | nil =>
      rw [List.nil_append] at ihh
      rw [List.cons_append, List.nil_append, pySplitlines,
        if_neg (fun hh => har hh.1), if_neg (by simp [ha]), ihh]
    | cons b l'' =>
      rw [List.cons_append] at ihh
      rw [List.cons_append, List.cons_append, pySplitlines,
        if_neg (fun hh => har hh.1), if_neg (by simp [ha]), ihh]

/-- Joining boundary-free lines with `"\n"` and re-splitting yields no line
outside the original list. -/
theorem mem_pySplitlines_joinNL {ls : List (List Char)}
    (h : ∀ l ∈ ls, ∀ c ∈ l, pyLineBreak c = false) :
    ∀ x ∈ pySplitlines (joinNL ls), x ∈ ls := by
  induction ls with
  | nil =>
    intro x hx
    simp [joinNL, pySplitlines] at hx
  | cons l ls' ih =>
    cases ls' with
    | nil =>
      intro x hx
      simp only [joinNL] at hx
      rw [pySplitlines_of_no_break (h l (List.mem_cons_self _ _))] at hx
      by_cases hl : l = []
      · rw [if_pos hl] at hx
        simp at hx
      · rw [if_neg hl] at hx
        rw [List.mem_singleton] at hx
        simp [hx]
    | cons l2 rest =>
      intro x hx
      simp only [joinNL] at hx
      rw [pySplitlines_append_newline _ _ (h l (List.mem_cons_self _ _))] at hx
      rcases List.mem_cons.mp hx with rfl | hx'
      · exact List.mem_cons_self _ _
      · exact List.mem_cons_of_mem _
          (ih (fun d hd c hc => h d (List.mem_cons_of_mem _ hd) c hc) x hx')

theorem infix_append_right (y : List Char) {a m : List Char} (h : a <:+: m) :
    a <:+: m ++ y := by
  obtain ⟨s, t, rfl⟩ := h
  exact ⟨s, t ++ y, by simp [List.append_assoc]⟩

theorem infix_self_append_left (x a : List Char) : a <:+: x ++ a := ⟨x, [], by simp⟩

/-- C5: comment lines never reach the rule parser, while the denial message
embeds the raw text: (i) no line of the text handed to `Protego.parse` has
trimmed content starting with `#`; (ii) when the rules disallow the URL
(status 200), the evaluator fails with the rules-disallow message; and that
message embeds (iii) the raw unfiltered robots text verbatim, (iv) the
user-agent string, (v) the target URL and (vi) the robots URL. -/
theorem robots_comment_stripping
    (protegoCanFetch : List Char → List Char → List Char → Bool)
    (url userAgent robotTxt : List Char)
    (hdeny : protegoCanFetch (processedRobotTxt robotTxt) url userAgent = false) :
    (∀ line ∈ pySplitlines (processedRobotTxt robotTxt), isCommentLine line = false) ∧
    checkMayAutonomouslyFetchUrl protegoCanFetch url userAgent 200 robotTxt =
      .denied (robotsDisallowedMessage (getRobotsTxtUrl url) userAgent url robotTxt) ∧
    robotTxt <:+: robotsDisallowedMessage (getRobotsTxtUrl url) userAgent url robotTxt ∧
    userAgent <:+: robotsDisallowedMessage (getRobotsTxtUrl url) userAgent url robotTxt ∧
    url <:+: robotsDisallowedMessage (getRobotsTxtUrl url) userAgent url robotTxt ∧
    getRobotsTxtUrl url <:+:
      robotsDisallowedMessage (getRobotsTxtUrl url) userAgent url robotTxt := by
  refine ⟨?_, ?_, ?_, ?_, ?_, ?_⟩
  · intro line hline
    rw [processedRobotTxt] at hline
    have hmem : line ∈ (pySplitlines robotTxt).filter (fun l => !isCommentLine l) := by
      refine mem_pySplitlines_joinNL ?_ line hline
      intro l hl c hc
      exact pySplitlines_no_break robotTxt l (List.mem_filter.mp hl).1 c hc
    have := (List.mem_filter.mp hmem).2
    simpa using this
  · rw [checkMayAutonomouslyFetchUrl, if_neg (by decide), if_neg (by decide),
      if_neg (by simp [hdeny])]
  · rw [robotsDisallowedMessage]
    exact infix_append_right _ (infix_self_append_left _ _)
  · rw [robotsDisallowedMessage]
    exact infix_append_right _ (infix_append_right _ (infix_append_right _
      (infix_append_right _ (infix_append_right _ (infix_self_append_left _ _)))))
  · rw [robotsDisallowedMessage]
    exact infix_append_right _ (infix_append_right _ (infix_append_right _
      (infix_self_append_left _ _)))
  · rw [robotsDisallowedMessage]
    exact infix_append_right _ (infix_append_right _ (infix_append_right _
      (infix_append_right _ (infix_append_right _ (infix_append_right _
        (infix_append_right _ (infix_self_append_left _ _)))))))

theorem robots_comment_stripping_witness :
    ((fun (_ _ _ : List Char) => false)
        (processedRobotTxt ("# note\nDisallow: /").data) ("http://x").data
        ("ua").data = false) ∧
    (∀ line ∈ pySplitlines (processedRobotTxt ("# note\nDisallow: /").data),
      isCommentLine line = false) :=
  ⟨rfl, (robots_comment_stripping (fun _ _ _ => false) ("http://x").data
    ("ua").data ("# note\nDisallow: /").data rfl).1⟩
